import Mathlib

/-!
Verification of the ScamScreener relay core: a shallow embedding of
`src/security/signature.ts`, `src/security/nonces.ts`,
`src/routes/redeem.ts` and `src/routes/upload.ts`, together with the
SQLite tables they use (`migrations/001_init.sql`).

Bytes are `Nat` values below 256; machine words are `Nat` reduced mod
`2 ^ 32` where the algorithm wraps.  The Node `crypto` primitives the
code calls (SHA-256, HMAC-SHA-256) are modelled concretely from
FIPS 180-4 / RFC 2104, so every definition is executable.
-/

set_option maxRecDepth 200000

namespace ScamScreener

/-! ### UTF-8 and hexadecimal rendering -/

def utf8EncodeChar (c : Char) : List Nat :=
  let n := c.toNat
  if n < 128 then [n]
  else if n < 2048 then [192 + n / 64, 128 + n % 64]
  else if n < 65536 then [224 + n / 4096, 128 + (n / 64) % 64, 128 + n % 64]
  else [240 + n / 262144, 128 + (n / 4096) % 64, 128 + (n / 64) % 64, 128 + n % 64]

def utf8Bytes (s : String) : List Nat :=
  (s.data.map utf8EncodeChar).flatten

def hexDigitChar (n : Nat) : Char :=
  if n < 10 then Char.ofNat (48 + n) else Char.ofNat (87 + n)

def byteHexChars (b : Nat) : List Char :=
  [hexDigitChar (b / 16 % 16), hexDigitChar (b % 16)]

def bytesToHex (bs : List Nat) : String :=
  ⟨(bs.map byteHexChars).flatten⟩

/-! ### SHA-256 (FIPS 180-4) -/

def M32 : Nat := 4294967296

def rotr (n x : Nat) : Nat :=
  ((x >>> n) ||| (x <<< (32 - n))) % M32

def shaK : List Nat :=
  [1116352408, 1899447441, 3049323471, 3921009573,
   961987163, 1508970993, 2453635748, 2870763221,
   3624381080, 310598401, 607225278, 1426881987,
   1925078388, 2162078206, 2614888103, 3248222580,
   3835390401, 4022224774, 264347078, 604807628,
   770255983, 1249150122, 1555081692, 1996064986,
   2554220882, 2821834349, 2952996808, 3210313671,
   3336571891, 3584528711, 113926993, 338241895,
   666307205, 773529912, 1294757372, 1396182291,
   1695183700, 1986661051, 2177026350, 2456956037,
   2730485921, 2820302411, 3259730800, 3345764771,
   3516065817, 3600352804, 4094571909, 275423344,
   430227734, 506948616, 659060556, 883997877,
   958139571, 1322822218, 1537002063, 1747873779,
   1955562222, 2024104815, 2227730452, 2361852424,
   2428436474, 2756734187, 3204031479, 3329325298]

structure Sha256State where
  a : Nat
  b : Nat
  c : Nat
  d : Nat
  e : Nat
  f : Nat
  g : Nat
  h : Nat
deriving DecidableEq, Repr

def shaInit : Sha256State :=
  ⟨1779033703, 3144134277, 1013904242, 2773480762,
   1359893119, 2600822924, 528734635, 1541459225⟩

def sigBig0 (x : Nat) : Nat := rotr 2 x ^^^ rotr 13 x ^^^ rotr 22 x

def sigBig1 (x : Nat) : Nat := rotr 6 x ^^^ rotr 11 x ^^^ rotr 25 x

def sigSmall0 (x : Nat) : Nat := rotr 7 x ^^^ rotr 18 x ^^^ (x >>> 3)

def sigSmall1 (x : Nat) : Nat := rotr 17 x ^^^ rotr 19 x ^^^ (x >>> 10)

def shaRound (st : Sha256State) (kw : Nat × Nat) : Sha256State :=
  let ch := (st.e &&& st.f) ^^^ ((st.e ^^^ 4294967295) &&& st.g)
  let maj := (st.a &&& st.b) ^^^ (st.a &&& st.c) ^^^ (st.b &&& st.c)
  let t1 := (st.h + sigBig1 st.e + ch + kw.1 + kw.2) % M32
  let t2 := (sigBig0 st.a + maj) % M32
  ⟨(t1 + t2) % M32, st.a, st.b, st.c, (st.d + t1) % M32, st.e, st.f, st.g⟩

def bytesToWords : List Nat → List Nat
  | b0 :: b1 :: b2 :: b3 :: rest =>
      (b0 * 16777216 + b1 * 65536 + b2 * 256 + b3) :: bytesToWords rest
  | _ => []

def extendSchedule : Nat → Array Nat → Array Nat
  | 0, w => w
  | fuel + 1, w =>
      let i := w.size
      let x := (sigSmall1 (w.getD (i - 2) 0) + w.getD (i - 7) 0 +
                sigSmall0 (w.getD (i - 15) 0) + w.getD (i - 16) 0) % M32
      extendSchedule fuel (w.push x)

def compress (st0 : Sha256State) (block : List Nat) : Sha256State :=
  let w := extendSchedule 48 (Array.mk (bytesToWords block))
  let st := (shaK.zip w.toList).foldl shaRound st0
  ⟨(st0.a + st.a) % M32, (st0.b + st.b) % M32, (st0.c + st.c) % M32,
   (st0.d + st.d) % M32, (st0.e + st.e) % M32, (st0.f + st.f) % M32,
   (st0.g + st.g) % M32, (st0.h + st.h) % M32⟩

def beBytes : Nat → Nat → List Nat
  | 0, _ => []
  | n + 1, v => beBytes n (v / 256) ++ [v % 256]

def padMessage (msg : List Nat) : List Nat :=
  let padZeros := (64 - (msg.length + 9) % 64) % 64
  msg ++ [128] ++ List.replicate padZeros 0 ++ beBytes 8 (8 * msg.length)

def splitBlocks : Nat → List Nat → List (List Nat)
  | 0, _ => []
  | _, [] => []
  | fuel + 1, l => l.take 64 :: splitBlocks fuel (l.drop 64)

def digestBytes (st : Sha256State) : List Nat :=
  beBytes 4 st.a ++ beBytes 4 st.b ++ beBytes 4 st.c ++ beBytes 4 st.d ++
  beBytes 4 st.e ++ beBytes 4 st.f ++ beBytes 4 st.g ++ beBytes 4 st.h

def sha256 (msg : List Nat) : List Nat :=
  let padded := padMessage msg
  digestBytes ((splitBlocks padded.length padded).foldl compress shaInit)

/-- HMAC (RFC 2104) with SHA-256: block size 64; a key longer than the
block is first hashed, then the key is zero-padded to the block size. -/
def hmacSha256Bytes (key msg : List Nat) : List Nat :=
  let k0 := if key.length > 64 then sha256 key else key
  let kp := k0 ++ List.replicate (64 - k0.length) 0
  sha256 ((kp.map (· ^^^ 92)) ++ sha256 ((kp.map (· ^^^ 54)) ++ msg))

/-! ### `src/security/signature.ts` -/

structure SignatureInput where
  method : String
  path : String
  clientId : String
  timestamp : String
  nonce : String
  fileSha256 : String
  fileSizeBytes : Nat
  schemaVersion : String
deriving DecidableEq, Repr

/-- `buildCanonicalString`: the eight fields joined by `"\n"`, with
`fileSizeBytes` rendered by `String(...)` (decimal for integers). -/
def buildCanonicalString (input : SignatureInput) : String :=
  input.method ++ "\n" ++ input.path ++ "\n" ++ input.clientId ++ "\n" ++
  input.timestamp ++ "\n" ++ input.nonce ++ "\n" ++ input.fileSha256 ++ "\n" ++
  Nat.repr input.fileSizeBytes ++ "\n" ++ input.schemaVersion

def hmacSha256Hex (secret canonicalString : String) : String :=
  bytesToHex (hmacSha256Bytes (utf8Bytes secret) (utf8Bytes canonicalString))

/-- One character of the case-insensitive class `[0-9a-f]` used by
`/^[0-9a-f]+$/i` in `timingSafeEqualHex`. -/
def isHexCharCI (c : Char) : Bool :=
  (('0' ≤ c) && (c ≤ '9')) || (('a' ≤ c) && (c ≤ 'f')) || (('A' ≤ c) && (c ≤ 'F'))

def matchesHexCI (s : String) : Bool :=
  (!s.data.isEmpty) && s.data.all isHexCharCI

def hexCharVal (c : Char) : Nat :=
  if ('0' ≤ c) && (c ≤ '9') then c.toNat - 48
  else if ('a' ≤ c) && (c ≤ 'f') then c.toNat - 87
  else if ('A' ≤ c) && (c ≤ 'F') then c.toNat - 55
  else 0

/-- `Buffer.from(hex, "hex")` on an all-hex even-length string:
case-insensitive pairwise decoding. -/
def hexDecodePairs : List Char → List Nat
  | c1 :: c2 :: rest => (16 * hexCharVal c1 + hexCharVal c2) :: hexDecodePairs rest
  | _ => []

/-- `timingSafeEqualHex` from `signature.ts`: regex guard on both inputs,
length and parity guard, decode, and `crypto.timingSafeEqual`, which for
equal-length buffers is byte equality. -/
def timingSafeEqualHex (expectedHex providedHex : String) : Bool :=
  if !(matchesHexCI expectedHex) || !(matchesHexCI providedHex) then false
  else if (expectedHex.length != providedHex.length) || (expectedHex.length % 2 != 0) then false
  else
    let expected := hexDecodePairs expectedHex.data
    let provided := hexDecodePairs providedHex.data
    if expected.length != provided.length then false
    else expected == provided

/-- JS `String.prototype.toLowerCase` restricted to the ASCII range the
code feeds it (hex digits and identifiers). -/
def toLowerCaseJs (s : String) : String :=
  ⟨s.data.map (fun c => if ('A' ≤ c) && (c ≤ 'Z') then Char.ofNat (c.toNat + 32) else c)⟩

def verifySignature (secret canonicalString providedSignatureHex : String) : Bool :=
  timingSafeEqualHex (hmacSha256Hex secret canonicalString) (toLowerCaseJs providedSignatureHex)

def sha256Hex (payload : List Nat) : String :=
  bytesToHex (sha256 payload)

def hashInviteCode (inviteCode : String) : String :=
  bytesToHex (sha256 (utf8Bytes inviteCode))

/-! ### Table rows (`migrations/001_init.sql`, `src/db.ts`) -/

inductive UploadErrorCode where
  | AUTH_FAILED
  | NONCE_REPLAY
  | PAYLOAD_INVALID
  | FILE_TOO_LARGE
  | RATE_LIMITED
  | DISCORD_FORWARD_FAILED
deriving DecidableEq, Repr

inductive RedeemErrorCode where
  | INVITE_INVALID
  | INVITE_EXPIRED
  | INVITE_ALREADY_USED
  | RATE_LIMITED
deriving DecidableEq, Repr

structure ClientRecord where
  client_id : String
  client_secret : String
  install_id : Option String
  active : Nat
  created_at : String
  revoked_at : Option String
deriving DecidableEq, Repr

/-- Invite row; `expires_at` carries the epoch-millisecond value that
`new Date(text).getTime()` produces from the stored ISO text. -/
structure InviteCodeRecord where
  code_hash : String
  max_uses : Nat
  used_count : Nat
  expires_at : Option Int
  created_at : String
  created_by : Option String
deriving DecidableEq, Repr

structure NonceRecord where
  client_id : String
  nonce : String
  seen_at : String
  expires_at : String
deriving DecidableEq, Repr

structure AuditRecord where
  request_id : String
  client_id : Option String
  status : String
  error_code : Option UploadErrorCode
  ip : String
  created_at : String
deriving DecidableEq, Repr

/-! ### `src/security/nonces.ts` -/

def isTimestampWithinSkew (timestampSeconds nowSeconds maxClockSkewSeconds : Int) : Bool :=
  ((nowSeconds - timestampSeconds).natAbs : Int) ≤ maxClockSkewSeconds

def hasSeenNonce (nonces : List NonceRecord) (clientId nonce : String) : Bool :=
  nonces.any (fun r => r.client_id == clientId && r.nonce == nonce)

/-- Lexicographic order on the code points, the order SQLite applies to
TEXT with the default BINARY collation on the ASCII ISO-8601 strings
stored here. -/
def leChars : List Char → List Char → Bool
  | [], _ => true
  | _ :: _, [] => false
  | c1 :: t1, c2 :: t2 =>
    if c1.toNat < c2.toNat then true
    else if c2.toNat < c1.toNat then false
    else leChars t1 t2

def sqliteTextLe (a b : String) : Bool := leChars a.data b.data

/-- `DELETE FROM nonces WHERE expires_at <= ?`.  Returns the surviving
rows and the removed count (`result.changes`). -/
def cleanupExpiredNonces (nowIso : String) (nonces : List NonceRecord) : List NonceRecord × Nat :=
  let kept := nonces.filter (fun r => !(sqliteTextLe r.expires_at nowIso))
  (kept, nonces.length - kept.length)

/-! ### `src/routes/redeem.ts` -/

/-- Hexadecimal groups 8-4-4-4-12 separated by hyphens: the shape
`z.string().uuid()` accepts. -/
def isUuid (s : String) : Bool :=
  s.data.length == 36 &&
  (List.range 36).all (fun i =>
    if i == 8 || i == 13 || i == 18 || i == 23 then s.data.getD i ' ' == '-'
    else isHexCharCI (s.data.getD i ' '))

/-- Raw request body as the transport hands it over; a missing key is
`none`. -/
structure RedeemBody where
  inviteCode : Option String
  installId : Option String
  modVersion : Option String
deriving DecidableEq, Repr

/-- `RedeemBodySchema.safeParse`: `inviteCode` nonempty, `installId` a
UUID, `modVersion` nonempty. -/
def parseRedeemBody (body : RedeemBody) : Option (String × String × String) :=
  match body.inviteCode, body.installId, body.modVersion with
  | some code, some iid, some mv =>
      if (code.length != 0) && isUuid iid && (mv.length != 0) then some (code, iid, mv)
      else none
  | _, _, _ => none

inductive RedeemOutcome where
  | ok (clientId clientSecret : String)
  | err (code : RedeemErrorCode)
deriving DecidableEq, Repr

structure RedeemState where
  invites : List InviteCodeRecord
  clients : List ClientRecord
deriving DecidableEq, Repr

structure RedeemTxArgs where
  codeHash : String
  clientId : String
  clientSecret : String
  installId : String
  nowIso : String
deriving DecidableEq, Repr

/-- Row predicate of the guarded update:
`WHERE code_hash = ? AND used_count < max_uses`. -/
def guardedInviteMatch (codeHash : String) (i : InviteCodeRecord) : Bool :=
  i.code_hash == codeHash && decide (i.used_count < i.max_uses)

def applyGuardedIncrement (codeHash : String) (i : InviteCodeRecord) : InviteCodeRecord :=
  if guardedInviteMatch codeHash i then { i with used_count := i.used_count + 1 } else i

def mkCredential (args : RedeemTxArgs) : ClientRecord :=
  ⟨args.clientId, args.clientSecret, some args.installId, 1, args.nowIso, none⟩

/-- The redemption transaction (lines 78-112 of `redeem.ts`): guarded
`UPDATE`, then `INSERT INTO clients`; if the update changed no row the
whole transaction rolls back, so the pre-state is returned unchanged.
The returned `Bool` is `true` on commit. -/
def redeemTx (args : RedeemTxArgs) (s : RedeemState) : Bool × RedeemState :=
  let changes := s.invites.countP (fun i => guardedInviteMatch args.codeHash i)
  if changes = 1 then
    (true,
     { invites := s.invites.map (applyGuardedIncrement args.codeHash),
       clients := mkCredential args :: s.clients })
  else (false, s)

structure RedeemResult where
  status : Nat
  outcome : RedeemOutcome
  state : RedeemState
  ledgerRead : Bool
deriving DecidableEq, Repr

/-- Usage check and transaction, shared tail of the route handler. -/
def redeemUsageAndTx (nowIso newClientId newClientSecret iid codeHash : String)
    (invite : InviteCodeRecord) (s : RedeemState) : RedeemResult :=
  if invite.used_count ≥ invite.max_uses then ⟨409, .err .INVITE_ALREADY_USED, s, true⟩
  else
    match redeemTx ⟨codeHash, newClientId, newClientSecret, iid, nowIso⟩ s with
    | (true, s') => ⟨200, .ok newClientId newClientSecret, s', true⟩
    | (false, s') => ⟨409, .err .INVITE_ALREADY_USED, s', true⟩

/-- The `POST /api/v1/client/redeem` handler.  `nowMs` is
`new Date().getTime()`; the fresh `clientId`/`clientSecret` produced by
`randomToken` are parameters, randomness being external.  `ledgerRead`
instruments whether the invite `SELECT` was reached. -/
def handleRedeem (nowMs : Int) (nowIso newClientId newClientSecret : String)
    (body : RedeemBody) (s : RedeemState) : RedeemResult :=
  match parseRedeemBody body with
  | none => ⟨400, .err .INVITE_INVALID, s, false⟩
  | some (code, iid, _mv) =>
    let codeHash := hashInviteCode code
    match s.invites.find? (fun i => i.code_hash == codeHash) with
    | none => ⟨400, .err .INVITE_INVALID, s, true⟩
    | some invite =>
      if invite.expires_at.any (fun t => decide (t ≤ nowMs)) then
        ⟨410, .err .INVITE_EXPIRED, s, true⟩
      else redeemUsageAndTx nowIso newClientId newClientSecret iid codeHash invite s

def runRedeemTxs (ops : List RedeemTxArgs) (s : RedeemState) : RedeemState :=
  ops.foldl (fun st a => (redeemTx a st).2) s

def usedOf (codeHash : String) (invites : List InviteCodeRecord) : Nat :=
  ((invites.find? (fun i => i.code_hash == codeHash)).map (fun i => i.used_count)).getD 0

def invitesBounded (invites : List InviteCodeRecord) : Prop :=
  ∀ i ∈ invites, i.used_count ≤ i.max_uses

/-! ### `src/routes/upload.ts` -/

/-- The five `x-scamscreener-*` headers as the transport delivers them;
a missing header is `none`. -/
structure RawUploadHeaders where
  clientId : Option String
  timestamp : Option String
  nonce : Option String
  signature : Option String
  signatureVersion : Option String
deriving DecidableEq, Repr

structure UploadHeaders where
  clientId : String
  timestamp : String
  nonce : String
  signature : String
deriving DecidableEq, Repr

def isDigitChar (c : Char) : Bool := ('0' ≤ c) && (c ≤ '9')

/-- Value of JS `Number(...)` on a string of decimal digits (the only
strings the handler feeds it, after the `/^\d+$/` check). -/
def parseDigits (s : String) : Nat :=
  s.data.foldl (fun n c => 10 * n + (c.toNat - 48)) 0

def matchesDigits (s : String) : Bool := (!s.data.isEmpty) && s.data.all isDigitChar

/-- The class `/^[a-fA-F0-9]{64}$/` used for the signature header and the
declared file hash. -/
def matchesHex64 (s : String) : Bool :=
  (s.data.length == 64) && s.data.all isHexCharCI

/-- `UploadHeadersSchema.safeParse`: client id nonempty, timestamp all
digits, nonce a UUID, signature 64 hex characters of either case, and
version literally `"v1"`. -/
def parseUploadHeaders (h : RawUploadHeaders) : Option UploadHeaders :=
  match h.clientId, h.timestamp, h.nonce, h.signature, h.signatureVersion with
  | some cid, some ts, some n, some sig, some ver =>
      if (cid.length != 0) && matchesDigits ts && isUuid n && matchesHex64 sig && (ver == "v1") then
        some ⟨cid, ts, n, sig⟩
      else none
  | _, _, _, _, _ => none

/-- Metadata object after JSON decoding (`JSON.parse` failure and shape
mismatch are folded into a `none` request field). -/
structure UploadMetadata where
  schemaVersion : String
  modVersion : String
  aiModelVersion : String
  playerName : String
  playerUuid : String
  clientTimestamp : String
  fileSha256 : String
  fileSizeBytes : Nat
deriving DecidableEq, Repr

/-- `UploadMetadataSchema.safeParse`: literal schema version `"1"`,
nonempty strings, 64-hex declared hash (then lowercased by the zod
transform), positive declared size. -/
def parseUploadMetadata (m : UploadMetadata) : Option UploadMetadata :=
  if (m.schemaVersion == "1") && (m.modVersion.length != 0) && (m.aiModelVersion.length != 0) &&
     (m.playerName.length != 0) && (m.playerUuid.length != 0) &&
     (m.clientTimestamp.length != 0) && matchesHex64 m.fileSha256 && (m.fileSizeBytes != 0) then
    some { m with fileSha256 := toLowerCaseJs m.fileSha256 }
  else none

structure ParsedUpload where
  metadata : UploadMetadata
  csvBuffer : List Nat
  verifiedFileSha256 : String
deriving DecidableEq, Repr

inductive IntakeError where
  | fileTooLarge
  | payloadInvalid
deriving DecidableEq, Repr

/-- `readMultipartPayload`: the streaming loop throws `FILE_TOO_LARGE`
once the buffered file exceeds the cap, then missing parts, metadata
shape, declared size and recomputed hash are checked in source order. -/
def readMultipartPayload (maxUploadBytes : Nat) (metadataJson : Option UploadMetadata)
    (csv : Option (List Nat)) : Except IntakeError ParsedUpload :=
  if csv.any (fun b => decide (b.length > maxUploadBytes)) then .error .fileTooLarge
  else
    match metadataJson, csv with
    | some raw, some buf =>
      match parseUploadMetadata raw with
      | none => .error .payloadInvalid
      | some metadata =>
        if metadata.fileSizeBytes != buf.length then .error .payloadInvalid
        else
          let verified := sha256Hex buf
          if verified != metadata.fileSha256 then .error .payloadInvalid
          else .ok ⟨metadata, buf, verified⟩
    | _, _ => .error .payloadInvalid

structure UploadState where
  clients : List ClientRecord
  nonces : List NonceRecord
  audit : List AuditRecord
deriving DecidableEq, Repr

/-- Request-scoped context: generated request id, caller ip, server
clock (`Date.now()` in seconds and as ISO text) and the nonce expiry
ISO text derived from the configured ttl, plus the configuration the
handler reads. -/
structure UploadCtx where
  requestId : String
  ip : String
  nowSec : Int
  nowIso : String
  expiresAtIso : String
  maxClockSkewSeconds : Int
  maxUploadBytes : Nat
deriving DecidableEq, Repr

structure UploadRequest where
  headers : RawUploadHeaders
  isMultipart : Bool
  metadataJson : Option UploadMetadata
  csv : Option (List Nat)
deriving DecidableEq, Repr

/-- External behaviour for one attempt: the forwarder result (`none`
means the call threw), whether the store throws a non-duplicate error
inside `persistNonce`, whether `cleanupExpiredNonces` throws, and the
rows concurrent requests commit to the nonce table between this
request's fast-path check and its own commit (the only two points where
the handler touches that table). -/
structure UploadExt where
  forwardOutcome : Option String
  persistFault : Bool
  cleanupFault : Bool
  interfere : List NonceRecord → List NonceRecord

inductive UploadBody where
  | ok (discordMessageId verifiedFileSha256 : String)
  | err (code : UploadErrorCode)
deriving DecidableEq, Repr

structure UploadResult where
  status : Nat
  body : UploadBody
  state : UploadState
  forwardCalled : Bool
deriving DecidableEq, Repr

def writeAuditRow (ctx : UploadCtx) (s : UploadState) (clientIdForAudit : Option String)
    (status : String) (errorCode : Option UploadErrorCode) : UploadState :=
  { s with audit := ⟨ctx.requestId, clientIdForAudit, status, errorCode, ctx.ip, ctx.nowIso⟩ :: s.audit }

def sendError (ctx : UploadCtx) (s : UploadState) (clientIdForAudit : Option String)
    (statusCode : Nat) (errorCode : UploadErrorCode) (fwd : Bool) : UploadResult :=
  ⟨statusCode, .err errorCode, writeAuditRow ctx s clientIdForAudit "REJECTED" (some errorCode), fwd⟩

/-- Replay commit and forwarding, the tail of the route handler after
signature verification.  The bare `catch` around `persistNonce` maps
every insert failure (duplicate key or store fault) to `NONCE_REPLAY`;
cleanup failure is swallowed; the forwarder is then called exactly
once. -/
def commitAndForward (ctx : UploadCtx) (ext : UploadExt) (s : UploadState)
    (cid nonce : String) (pu : ParsedUpload) : UploadResult :=
  let ns := ext.interfere s.nonces
  if ext.persistFault || hasSeenNonce ns cid nonce then
    sendError ctx { s with nonces := ns } (some cid) 409 .NONCE_REPLAY false
  else
    let afterPersist : List NonceRecord := ⟨cid, nonce, ctx.nowIso, ctx.expiresAtIso⟩ :: ns
    let afterCleanup :=
      if ext.cleanupFault then afterPersist
      else (cleanupExpiredNonces ctx.nowIso afterPersist).1
    let s1 := { s with nonces := afterCleanup }
    match ext.forwardOutcome with
    | none => sendError ctx s1 (some cid) 502 .DISCORD_FORWARD_FAILED true
    | some msgId =>
        ⟨200, .ok msgId pu.verifiedFileSha256, writeAuditRow ctx s1 (some cid) "FORWARDED" none, true⟩

/-- The `POST /api/v1/training-uploads` handler of `upload.ts`. -/
def handleUpload (ctx : UploadCtx) (ext : UploadExt) (req : UploadRequest)
    (s : UploadState) : UploadResult :=
  match parseUploadHeaders req.headers with
  | none => sendError ctx s none 401 .AUTH_FAILED false
  | some h =>
    let cid := h.clientId
    if !(isTimestampWithinSkew (Int.ofNat (parseDigits h.timestamp)) ctx.nowSec
          ctx.maxClockSkewSeconds) then
      sendError ctx s (some cid) 401 .AUTH_FAILED false
    else
      match s.clients.find? (fun c => c.client_id == cid) with
      | none => sendError ctx s (some cid) 401 .AUTH_FAILED false
      | some client =>
        if client.active != 1 then sendError ctx s (some cid) 401 .AUTH_FAILED false
        else if hasSeenNonce s.nonces cid h.nonce then
          sendError ctx s (some cid) 409 .NONCE_REPLAY false
        else if !req.isMultipart then sendError ctx s (some cid) 422 .PAYLOAD_INVALID false
        else
          match readMultipartPayload ctx.maxUploadBytes req.metadataJson req.csv with
          | .error .fileTooLarge => sendError ctx s (some cid) 413 .FILE_TOO_LARGE false
          | .error .payloadInvalid => sendError ctx s (some cid) 422 .PAYLOAD_INVALID false
          | .ok pu =>
            let canonical := buildCanonicalString
              ⟨"POST", "/api/v1/training-uploads", cid, h.timestamp, h.nonce,
               pu.metadata.fileSha256, pu.metadata.fileSizeBytes, pu.metadata.schemaVersion⟩
            if !(verifySignature client.client_secret canonical (toLowerCaseJs h.signature)) then
              sendError ctx s (some cid) 401 .AUTH_FAILED false
            else commitAndForward ctx ext s cid h.nonce pu

/-! ### Concrete scenario data used by witnesses and counterexamples -/

def tClientId : String := "relay-client-test"

def tSecret : String := "relay-secret-test"

def tNonce : String := "11111111-2222-4333-8444-555555555555"

def tCsv : List Nat := utf8Bytes "label,score"

def tMeta : UploadMetadata :=
  ⟨"1", "1.0.0", "model-1", "Player1", "22222222-3333-4444-5555-666666666666",
   "2023-11-14T22:13:20.000Z", sha256Hex tCsv, tCsv.length⟩

def tCanonical : String :=
  buildCanonicalString ⟨"POST", "/api/v1/training-uploads", tClientId, "1700000000", tNonce,
    sha256Hex tCsv, tCsv.length, "1"⟩

def tHeaders : RawUploadHeaders :=
  ⟨some tClientId, some "1700000000", some tNonce, some (hmacSha256Hex tSecret tCanonical),
   some "v1"⟩

def tClient : ClientRecord := ⟨tClientId, tSecret, some "iid-0", 1, "2023-01-01T00:00:00.000Z", none⟩

def tState : UploadState := ⟨[tClient], [], []⟩

def tCtx : UploadCtx :=
  ⟨"req-1", "1.2.3.4", 1700000000, "2023-11-14T22:13:20.000Z", "2023-11-14T22:23:20.000Z",
   300, 26214400⟩

def tReq : UploadRequest := ⟨tHeaders, true, some tMeta, some tCsv⟩

/-- Same request but the metadata declares a hash that is not the hash
of the received bytes. -/
def tMetaBad : UploadMetadata := { tMeta with fileSha256 := ⟨List.replicate 64 'f'⟩ }

def tReqBad : UploadRequest := ⟨tHeaders, true, some tMetaBad, some tCsv⟩

def tExtOk : UploadExt := ⟨some "msg-1", false, false, id⟩

def tExtFwdFail : UploadExt := ⟨none, false, false, id⟩

def sigInput : SignatureInput :=
  ⟨"POST", "/api/v1/training-uploads", "relay-client-a1b2", "1700000000",
   "8eb62752-e147-4f2b-95a8-62de00f99701", "abc123", 42, "1"⟩

def upperSig : String := ⟨List.replicate 64 'A'⟩

def upperSigHeaders : RawUploadHeaders :=
  ⟨some tClientId, some "1700000000", some tNonce, some upperSig, some "v1"⟩

/-- Follows the spec's words for comparison with the code's header
check: "signature 64 lowercase-hex characters". -/
def specSignatureLowercaseHex64 (s : String) : Bool :=
  (s.data.length == 64) &&
  s.data.all (fun c => (('0' ≤ c) && (c ≤ '9')) || (('a' ≤ c) && (c ≤ 'f')))

def rInvite : InviteCodeRecord :=
  ⟨hashInviteCode "welcome1", 1, 0, none, "2023-01-01T00:00:00.000Z", some "ops"⟩

def rState : RedeemState := ⟨[rInvite], []⟩

def rBody : RedeemBody :=
  ⟨some "welcome1", some "33333333-4444-4555-8666-777777777777", some "1.0.0"⟩

def rBadBody : RedeemBody := ⟨some "welcome1", some "not-a-uuid", some "1.0.0"⟩

def rUnknownBody : RedeemBody :=
  ⟨some "nosuchcode", some "33333333-4444-4555-8666-777777777777", some "1.0.0"⟩

/-- Invite that is both expired and fully used. -/
def rExpiredInvite : InviteCodeRecord :=
  ⟨hashInviteCode "expired1", 1, 1, some 5, "2023-01-01T00:00:00.000Z", some "ops"⟩

def rExpiredState : RedeemState := ⟨[rExpiredInvite], []⟩

def rExpiredBody : RedeemBody :=
  ⟨some "expired1", some "33333333-4444-4555-8666-777777777777", some "1.0.0"⟩

def raceArgs1 : RedeemTxArgs :=
  ⟨hashInviteCode "welcome1", "relay-client-aaa", "relay-secret-aaa", "iid-1",
   "2023-11-14T22:13:20.000Z"⟩

def raceArgs2 : RedeemTxArgs :=
  ⟨hashInviteCode "welcome1", "relay-client-bbb", "relay-secret-bbb", "iid-2",
   "2023-11-14T22:13:20.000Z"⟩

/-- Transaction arguments the route handler builds for the first racing
redemption of `rBody` (the install id comes from the request body). -/
def raceTxAaa : RedeemTxArgs :=
  ⟨hashInviteCode "welcome1", "relay-client-aaa", "relay-secret-aaa",
   "33333333-4444-4555-8666-777777777777", "2023-11-14T22:13:20.000Z"⟩

def raceTxBbb : RedeemTxArgs :=
  ⟨hashInviteCode "welcome1", "relay-client-bbb", "relay-secret-bbb",
   "33333333-4444-4555-8666-777777777777", "2023-11-14T22:13:20.000Z"⟩

/-- State after the first racing redemption committed. -/
def raceStateAfterAaa : RedeemState := (redeemTx raceTxAaa rState).2

/-- The invite row as it stands once the first redemption committed. -/
def rUsedInvite : InviteCodeRecord :=
  ⟨hashInviteCode "welcome1", 1, 1, none, "2023-01-01T00:00:00.000Z", some "ops"⟩

/-! ### Theorems: `timingSafeEqualHex` (hex-digest comparison) -/

theorem matchesHexCI_eq_false_of_bad {s : String} (h : ∃ c ∈ s.data, isHexCharCI c = false) :
    matchesHexCI s = false := by
  obtain ⟨c, hc, hcf⟩ := h
  have hall : s.data.all isHexCharCI = false := by
    cases hv : s.data.all isHexCharCI with
    | false => rfl
    | true => exact absurd (List.all_eq_true.mp hv c hc) (by simp [hcf])
  simp [matchesHexCI, hall]

theorem timingSafeEqualHex_self {s : String} (hne : s.data ≠ [])
    (hpar : s.length % 2 = 0) (hall : ∀ c ∈ s.data, isHexCharCI c = true) :
    timingSafeEqualHex s s = true := by
  have hm : matchesHexCI s = true := by
    simp [matchesHexCI, List.all_eq_true.mpr hall, hne]
  unfold timingSafeEqualHex
  simp [hm, hpar]

/-- C7: the hex-digest comparison used by signature verification is a
total Boolean function that returns `false` whenever either input
contains a non-hexadecimal character, the lengths differ, or the
decoded byte strings differ; no input makes it fail. -/
theorem timing_safe_equal_total_c7 :
    (∀ a b : String,
        ((∃ c ∈ a.data, isHexCharCI c = false) ∨ (∃ c ∈ b.data, isHexCharCI c = false)) →
        timingSafeEqualHex a b = false)
  ∧ (∀ a b : String, a.length ≠ b.length → timingSafeEqualHex a b = false)
  ∧ (∀ a b : String, hexDecodePairs a.data ≠ hexDecodePairs b.data →
        timingSafeEqualHex a b = false) := by
  refine ⟨?_, ?_, ?_⟩
  · intro a b h
    have hguard : (!matchesHexCI a || !matchesHexCI b) = true := by
      rcases h with h | h
      · simp [matchesHexCI_eq_false_of_bad h]
      · simp [matchesHexCI_eq_false_of_bad h]
    simp [timingSafeEqualHex, hguard]
  · intro a b h
    unfold timingSafeEqualHex
    split
    · rfl
    split
    · rfl
    next hlen =>
      exact absurd (by simpa using (Bool.not_eq_true _ ▸ hlen : _)) (by simp [h])
  · intro a b h
    unfold timingSafeEqualHex
    split
    · rfl
    split
    · rfl
    dsimp only
    split
    · rfl
    exact beq_eq_false_iff_ne.mpr h

theorem timing_safe_equal_total_c7_witness :
    timingSafeEqualHex "zz" "ab" = false ∧ timingSafeEqualHex "ab" "abab" = false ∧
    timingSafeEqualHex "ab" "cd" = false :=
  ⟨timing_safe_equal_total_c7.1 "zz" "ab" (by decide),
   timing_safe_equal_total_c7.2.1 "ab" "abab" (by decide),
   timing_safe_equal_total_c7.2.2 "ab" "cd" (by decide)⟩

/-- C9: comparing a string with itself returns `false` when it is
empty, of odd length, or contains a non-hex character (in particular on
`"abc"`), and returns `true` on every nonempty even-length hex
string. -/
theorem timing_safe_equal_refl_c9 :
    (∀ s : String, s.data = [] → timingSafeEqualHex s s = false)
  ∧ (∀ s : String, s.length % 2 = 1 → timingSafeEqualHex s s = false)
  ∧ (∀ s : String, (∃ c ∈ s.data, isHexCharCI c = false) → timingSafeEqualHex s s = false)
  ∧ (∀ s : String, s.data ≠ [] → s.length % 2 = 0 →
      (∀ c ∈ s.data, isHexCharCI c = true) → timingSafeEqualHex s s = true)
  ∧ timingSafeEqualHex "abc" "abc" = false := by
  refine ⟨?_, ?_, ?_, ?_, by decide⟩
  · intro s h
    simp [timingSafeEqualHex, matchesHexCI, h]
  · intro s h
    unfold timingSafeEqualHex
    split
    · rfl
    split
    · rfl
    next hlen => exact absurd (by simpa using (Bool.not_eq_true _ ▸ hlen : _)) (by simp [h])
  · intro s h
    simp [timingSafeEqualHex, matchesHexCI_eq_false_of_bad h]
  · exact fun s hne hpar hall => timingSafeEqualHex_self hne hpar hall

theorem timing_safe_equal_refl_c9_witness :
    timingSafeEqualHex "" "" = false ∧ timingSafeEqualHex "abc" "abc" = false ∧
    timingSafeEqualHex "a!" "a!" = false ∧ timingSafeEqualHex "0aF9" "0aF9" = true :=
  ⟨timing_safe_equal_refl_c9.1 "" (by decide),
   timing_safe_equal_refl_c9.2.1 "abc" (by decide),
   timing_safe_equal_refl_c9.2.2.1 "a!" (by decide),
   timing_safe_equal_refl_c9.2.2.2.1 "0aF9" (by decide) (by decide) (by decide)⟩

/-! ### Decimal rendering is injective: `parseDigits (Nat.repr n) = n` -/

theorem digitChar_val {m : Nat} (h : m < 10) : (Nat.digitChar m).toNat - 48 = m := by
  interval_cases m <;> rfl

theorem toDigitsCore_succ (b fuel n : Nat) (acc : List Char) :
    Nat.toDigitsCore b (fuel + 1) n acc =
      if n / b = 0 then Nat.digitChar (n % b) :: acc
      else Nat.toDigitsCore b fuel (n / b) (Nat.digitChar (n % b) :: acc) := rfl

theorem foldl_digitStep_toDigitsCore (f : Nat) : ∀ (n a : Nat) (acc : List Char),
    n < 10 ^ (f + 1) →
    ∃ k, (Nat.toDigitsCore 10 (f + 1) n acc).foldl (fun m c => 10 * m + (c.toNat - 48)) a =
      acc.foldl (fun m c => 10 * m + (c.toNat - 48)) (a * 10 ^ k + n) := by
  induction f with
  | zero =>
    intro n a acc h
    rw [pow_one] at h
    have hdiv : n / 10 = 0 := Nat.div_eq_of_lt h
    refine ⟨1, ?_⟩
    rw [toDigitsCore_succ, if_pos hdiv, List.foldl_cons,
      digitChar_val (Nat.mod_lt _ (by norm_num)), Nat.mod_eq_of_lt h,
      show a * 10 ^ 1 + n = 10 * a + n by ring]
  | succ f ih =>
    intro n a acc h
    by_cases hdiv : n / 10 = 0
    · have hlt : n < 10 := by omega
      refine ⟨1, ?_⟩
      rw [toDigitsCore_succ, if_pos hdiv, List.foldl_cons,
        digitChar_val (Nat.mod_lt _ (by norm_num)), Nat.mod_eq_of_lt hlt,
        show a * 10 ^ 1 + n = 10 * a + n by ring]
    · have hlt : n / 10 < 10 ^ (f + 1) := by
        rw [Nat.div_lt_iff_lt_mul (by norm_num)]
        calc n < 10 ^ (f + 1 + 1) := h
        _ = 10 ^ (f + 1) * 10 := by rw [pow_succ]
      obtain ⟨k, hk⟩ := ih (n / 10) a (Nat.digitChar (n % 10) :: acc) hlt
      refine ⟨k + 1, ?_⟩
      rw [toDigitsCore_succ, if_neg hdiv, hk, List.foldl_cons,
        digitChar_val (Nat.mod_lt _ (by norm_num))]
      have heq : 10 * (a * 10 ^ k + n / 10) + n % 10 = a * 10 ^ (k + 1) + n := by
        have hmod := Nat.div_add_mod n 10
        rw [pow_succ]
        ring_nf
        omega
      rw [heq]

theorem parseDigits_repr (n : Nat) : parseDigits (Nat.repr n) = n := by
  have hb : n < 10 ^ (n + 1) :=
    lt_of_lt_of_le (Nat.lt_pow_self (by norm_num) n)
      (Nat.pow_le_pow_right (by norm_num) (Nat.le_succ n))
  obtain ⟨k, hk⟩ := foldl_digitStep_toDigitsCore n n 0 [] hb
  simpa [parseDigits, Nat.repr, Nat.toDigits, List.asString] using hk

theorem natRepr_injective {m n : Nat} (h : Nat.repr m = Nat.repr n) : m = n := by
  have hm := parseDigits_repr m
  rw [h, parseDigits_repr] at hm
  exact hm.symm

/-! ### Shape of SHA-256 / HMAC digests -/

theorem length_beBytes (n v : Nat) : (beBytes n v).length = n := by
  induction n generalizing v with
  | zero => rfl
  | succ n ih => simp [beBytes, ih]

theorem mem_beBytes_lt {n v b : Nat} (h : b ∈ beBytes n v) : b < 256 := by
  induction n generalizing v with
  | zero => simp [beBytes] at h
  | succ n ih =>
    simp only [beBytes, List.mem_append, List.mem_singleton] at h
    rcases h with h | h
    · exact ih h
    · subst h; exact Nat.mod_lt _ (by norm_num)

theorem sha256_length (msg : List Nat) : (sha256 msg).length = 32 := by
  simp [sha256, digestBytes, length_beBytes]

theorem sha256_mem_lt {msg : List Nat} {b : Nat} (h : b ∈ sha256 msg) : b < 256 := by
  simp only [sha256, digestBytes, List.mem_append] at h
  rcases h with ((((((h | h) | h) | h) | h) | h) | h) | h <;> exact mem_beBytes_lt h

theorem hmacSha256Bytes_length (key msg : List Nat) : (hmacSha256Bytes key msg).length = 32 := by
  unfold hmacSha256Bytes
  exact sha256_length _

theorem hmacSha256Bytes_mem_lt {key msg : List Nat} {b : Nat} (h : b ∈ hmacSha256Bytes key msg) :
    b < 256 := by
  unfold hmacSha256Bytes at h
  exact sha256_mem_lt h

theorem hexDigitChar_props {m : Nat} (h : m < 16) :
    isHexCharCI (hexDigitChar m) = true ∧
    (('A' ≤ hexDigitChar m) && (hexDigitChar m ≤ 'Z')) = false := by
  interval_cases m <;> exact ⟨by decide, by decide⟩

theorem byteHexChars_props (b : Nat) :
    ∀ c ∈ byteHexChars b, isHexCharCI c = true ∧ (('A' ≤ c) && (c ≤ 'Z')) = false := by
  intro c hc
  simp only [byteHexChars, List.mem_cons, List.not_mem_nil, or_false] at hc
  rcases hc with rfl | rfl
  · exact hexDigitChar_props (Nat.mod_lt _ (by norm_num))
  · exact hexDigitChar_props (Nat.mod_lt _ (by norm_num))

theorem bytesToHex_all_props (bs : List Nat) :
    ∀ c ∈ (bytesToHex bs).data, isHexCharCI c = true ∧ (('A' ≤ c) && (c ≤ 'Z')) = false := by
  intro c hc
  simp only [bytesToHex, List.mem_flatten, List.mem_map] at hc
  obtain ⟨l, ⟨b, _, rfl⟩, hcl⟩ := hc
  exact byteHexChars_props b c hcl

theorem bytesToHex_data_length (bs : List Nat) : (bytesToHex bs).data.length = 2 * bs.length := by
  induction bs with
  | nil => rfl
  | cons b bs ih =>
    simp only [bytesToHex, List.map_cons, List.flatten_cons, List.length_append] at *
    simp [byteHexChars, ih]
    ring

theorem toLowerCaseJs_fix {s : String} (h : ∀ c ∈ s.data, (('A' ≤ c) && (c ≤ 'Z')) = false) :
    toLowerCaseJs s = s := by
  have hmap : s.data.map
      (fun c => if ('A' ≤ c) && (c ≤ 'Z') then Char.ofNat (c.toNat + 32) else c) = s.data :=
    (List.map_congr_left (fun c hc => by simp [h c hc])).trans (List.map_id s.data)
  unfold toLowerCaseJs
  cases s with
  | mk data => exact congrArg String.mk hmap

theorem hmacHex_digest_props (secret msg : String) :
    (hmacSha256Hex secret msg).data ≠ [] ∧ (hmacSha256Hex secret msg).length % 2 = 0 ∧
    (∀ c ∈ (hmacSha256Hex secret msg).data, isHexCharCI c = true) ∧
    toLowerCaseJs (hmacSha256Hex secret msg) = hmacSha256Hex secret msg := by
  have hlen : (hmacSha256Hex secret msg).data.length = 64 := by
    unfold hmacSha256Hex
    rw [bytesToHex_data_length, hmacSha256Bytes_length]
  refine ⟨?_, ?_, ?_, ?_⟩
  · intro hnil
    rw [hnil] at hlen
    simp at hlen
  · show (hmacSha256Hex secret msg).data.length % 2 = 0
    rw [hlen]
  · exact fun c hc => (bytesToHex_all_props _ c hc).1
  · exact toLowerCaseJs_fix (fun c hc => (bytesToHex_all_props _ c hc).2)

theorem verifySignature_roundtrip (secret msg : String) :
    verifySignature secret msg (hmacSha256Hex secret msg) = true := by
  obtain ⟨hne, hpar, hall, hfix⟩ := hmacHex_digest_props secret msg
  unfold verifySignature
  rw [hfix]
  exact timingSafeEqualHex_self hne hpar hall

/-! ### String append cancellation, for canonical-string injectivity -/

theorem string_data_inj {s t : String} (h : s.data = t.data) : s = t := by
  cases s
  cases t
  simp_all

theorem string_append_cancel_left {a x y : String} (h : a ++ x = a ++ y) : x = y := by
  apply string_data_inj
  have hd := congrArg String.data h
  rw [String.data_append, String.data_append] at hd
  exact List.append_cancel_left hd

theorem string_append_cancel_right {x y a : String} (h : x ++ a = y ++ a) : x = y := by
  apply string_data_inj
  have hd := congrArg String.data h
  rw [String.data_append, String.data_append] at hd
  exact List.append_cancel_right hd

theorem string_append_assoc (a b c : String) : a ++ b ++ c = a ++ (b ++ c) := by
  apply string_data_inj
  simp [String.data_append, List.append_assoc]

/-- C3 (amended): for every secret and field tuple, verifying the
signature produced over the canonical string with the same secret
succeeds; and changing any single field of the tuple changes the
canonical string the digest is computed over.  (Rejection of a changed
tuple or of a non-equivalent secret then rests on HMAC-SHA-256 collision
behaviour; HMAC-equivalent secrets, such as a secret extended by a NUL
byte, verify nonetheless — see the counterexample.) -/
theorem signature_roundtrip_c3 :
    (∀ (secret : String) (input : SignatureInput),
        verifySignature secret (buildCanonicalString input)
          (hmacSha256Hex secret (buildCanonicalString input)) = true)
  ∧ (∀ (i : SignatureInput) (x : String), x ≠ i.method →
      buildCanonicalString { i with method := x } ≠ buildCanonicalString i)
  ∧ (∀ (i : SignatureInput) (x : String), x ≠ i.path →
      buildCanonicalString { i with path := x } ≠ buildCanonicalString i)
  ∧ (∀ (i : SignatureInput) (x : String), x ≠ i.clientId →
      buildCanonicalString { i with clientId := x } ≠ buildCanonicalString i)
  ∧ (∀ (i : SignatureInput) (x : String), x ≠ i.timestamp →
      buildCanonicalString { i with timestamp := x } ≠ buildCanonicalString i)
  ∧ (∀ (i : SignatureInput) (x : String), x ≠ i.nonce →
      buildCanonicalString { i with nonce := x } ≠ buildCanonicalString i)
  ∧ (∀ (i : SignatureInput) (x : String), x ≠ i.fileSha256 →
      buildCanonicalString { i with fileSha256 := x } ≠ buildCanonicalString i)
  ∧ (∀ (i : SignatureInput) (x : Nat), x ≠ i.fileSizeBytes →
      buildCanonicalString { i with fileSizeBytes := x } ≠ buildCanonicalString i)
  ∧ (∀ (i : SignatureInput) (x : String), x ≠ i.schemaVersion →
      buildCanonicalString { i with schemaVersion := x } ≠ buildCanonicalString i) := by
  refine ⟨fun secret input => verifySignature_roundtrip secret (buildCanonicalString input),
    ?_, ?_, ?_, ?_, ?_, ?_, ?_, ?_⟩
  · intro i x hne heq
    simp only [buildCanonicalString, string_append_assoc] at heq
    exact hne (string_append_cancel_right heq)
  · intro i x hne heq
    simp only [buildCanonicalString, string_append_assoc] at heq
    replace heq := string_append_cancel_left (string_append_cancel_left heq)
    exact hne (string_append_cancel_right heq)
  · intro i x hne heq
    simp only [buildCanonicalString, string_append_assoc] at heq
    iterate 4 replace heq := string_append_cancel_left heq
    exact hne (string_append_cancel_right heq)
  · intro i x hne heq
    simp only [buildCanonicalString, string_append_assoc] at heq
    iterate 6 replace heq := string_append_cancel_left heq
    exact hne (string_append_cancel_right heq)
  · intro i x hne heq
    simp only [buildCanonicalString, string_append_assoc] at heq
    iterate 8 replace heq := string_append_cancel_left heq
    exact hne (string_append_cancel_right heq)
  · intro i x hne heq
    simp only [buildCanonicalString, string_append_assoc] at heq
    iterate 10 replace heq := string_append_cancel_left heq
    exact hne (string_append_cancel_right heq)
  · intro i x hne heq
    simp only [buildCanonicalString, string_append_assoc] at heq
    iterate 12 replace heq := string_append_cancel_left heq
    exact hne (natRepr_injective (string_append_cancel_right heq))
  · intro i x hne heq
    simp only [buildCanonicalString, string_append_assoc] at heq
    iterate 14 replace heq := string_append_cancel_left heq
    exact hne heq

theorem signature_roundtrip_c3_witness :
    (verifySignature tSecret (buildCanonicalString sigInput)
      (hmacSha256Hex tSecret (buildCanonicalString sigInput)) = true)
  ∧ buildCanonicalString { sigInput with method := "GET" } ≠ buildCanonicalString sigInput
  ∧ buildCanonicalString { sigInput with path := "/other" } ≠ buildCanonicalString sigInput
  ∧ buildCanonicalString { sigInput with clientId := "relay-client-z" } ≠
      buildCanonicalString sigInput
  ∧ buildCanonicalString { sigInput with timestamp := "1700000001" } ≠
      buildCanonicalString sigInput
  ∧ buildCanonicalString { sigInput with nonce := "9eb62752-e147-4f2b-95a8-62de00f99701" } ≠
      buildCanonicalString sigInput
  ∧ buildCanonicalString { sigInput with fileSha256 := "abc124" } ≠ buildCanonicalString sigInput
  ∧ buildCanonicalString { sigInput with fileSizeBytes := 43 } ≠ buildCanonicalString sigInput
  ∧ buildCanonicalString { sigInput with schemaVersion := "2" } ≠ buildCanonicalString sigInput :=
  ⟨signature_roundtrip_c3.1 tSecret sigInput,
   signature_roundtrip_c3.2.1 sigInput "GET" (by decide),
   signature_roundtrip_c3.2.2.1 sigInput "/other" (by decide),
   signature_roundtrip_c3.2.2.2.1 sigInput "relay-client-z" (by decide),
   signature_roundtrip_c3.2.2.2.2.1 sigInput "1700000001" (by decide),
   signature_roundtrip_c3.2.2.2.2.2.1 sigInput "9eb62752-e147-4f2b-95a8-62de00f99701" (by decide),
   signature_roundtrip_c3.2.2.2.2.2.2.1 sigInput "abc124" (by decide),
   signature_roundtrip_c3.2.2.2.2.2.2.2.1 sigInput 43 (by decide),
   signature_roundtrip_c3.2.2.2.2.2.2.2.2 sigInput "2" (by decide)⟩

/-- C3 counterexample: verifying with a secret different from the
signing secret does not always fail.  A secret shorter than the HMAC
block size and the same secret extended with a NUL byte are zero-padded
to the same key, so the signature made with one verifies under the
other. -/
theorem signature_secret_equiv_c3_cex :
    ¬ (("relay-secret-test\x00" : String) = "relay-secret-test")
  ∧ verifySignature "relay-secret-test\x00" (buildCanonicalString sigInput)
      (hmacSha256Hex "relay-secret-test" (buildCanonicalString sigInput)) = true := by
  constructor
  · decide
  · decide

/-! ### Theorems: invite redemption (`redeem.ts`) -/

/-- C8: an existing invite whose expiry is set and has passed is
rejected with `INVITE_EXPIRED` (HTTP 410) whatever `usedCount` and
`maxUses` hold; the expiry check runs before the usage check, so an
invite that is both expired and fully used reports `INVITE_EXPIRED`. -/
theorem redeem_expired_precedence_c8 (nowMs : Int) (nowIso cId cSec : String)
    (body : RedeemBody) (code iid mv : String) (s : RedeemState)
    (invite : InviteCodeRecord) (t : Int)
    (hparse : parseRedeemBody body = some (code, iid, mv))
    (hfind : s.invites.find? (fun i => i.code_hash == hashInviteCode code) = some invite)
    (hexp : invite.expires_at = some t) (hle : t ≤ nowMs) :
    handleRedeem nowMs nowIso cId cSec body s = ⟨410, .err .INVITE_EXPIRED, s, true⟩ := by
  unfold handleRedeem
  rw [hparse]
  dsimp only
  rw [hfind]
  have hcond : invite.expires_at.any (fun t' => decide (t' ≤ nowMs)) = true := by
    rw [hexp]
    simpa using hle
  simp [hcond]

theorem redeem_expired_precedence_c8_witness :
    rExpiredInvite.used_count ≥ rExpiredInvite.max_uses ∧
    handleRedeem 10 "2023-11-14T22:13:20.000Z" "relay-client-new" "relay-secret-new"
      rExpiredBody rExpiredState = ⟨410, .err .INVITE_EXPIRED, rExpiredState, true⟩ :=
  ⟨by decide,
   redeem_expired_precedence_c8 10 "2023-11-14T22:13:20.000Z" "relay-client-new"
     "relay-secret-new" rExpiredBody "expired1" "33333333-4444-4555-8666-777777777777" "1.0.0"
     rExpiredState rExpiredInvite 5 (by decide) (by decide) rfl (by decide)⟩

/-- C10: a structurally invalid redeem body is answered with HTTP 400
and `INVITE_INVALID` before the code is hashed or the invite ledger
read — the state is returned untouched and the ledger-read flag is
still unset — and a well-formed body whose code matches no invite gets
the same 400 `INVITE_INVALID` answer, so the two are indistinguishable
at the public interface. -/
theorem redeem_invalid_body_c10 :
    (∀ (nowMs : Int) (nowIso cId cSec : String) (body : RedeemBody) (s : RedeemState),
        parseRedeemBody body = none →
        handleRedeem nowMs nowIso cId cSec body s = ⟨400, .err .INVITE_INVALID, s, false⟩)
  ∧ (∀ (nowMs : Int) (nowIso cId cSec code iid mv : String) (body : RedeemBody)
        (s : RedeemState),
        parseRedeemBody body = some (code, iid, mv) →
        s.invites.find? (fun i => i.code_hash == hashInviteCode code) = none →
        handleRedeem nowMs nowIso cId cSec body s = ⟨400, .err .INVITE_INVALID, s, true⟩) := by
  constructor
  · intro nowMs nowIso cId cSec body s hparse
    unfold handleRedeem
    rw [hparse]
  · intro nowMs nowIso cId cSec code iid mv body s hparse hfind
    unfold handleRedeem
    rw [hparse]
    dsimp only
    rw [hfind]

theorem redeem_invalid_body_c10_witness :
    handleRedeem 1700000000000 "2023-11-14T22:13:20.000Z" "relay-client-new" "relay-secret-new"
      rBadBody rState = ⟨400, .err .INVITE_INVALID, rState, false⟩ ∧
    handleRedeem 1700000000000 "2023-11-14T22:13:20.000Z" "relay-client-new" "relay-secret-new"
      rUnknownBody rState = ⟨400, .err .INVITE_INVALID, rState, true⟩ :=
  ⟨redeem_invalid_body_c10.1 1700000000000 "2023-11-14T22:13:20.000Z" "relay-client-new"
     "relay-secret-new" rBadBody rState (by decide),
   redeem_invalid_body_c10.2 1700000000000 "2023-11-14T22:13:20.000Z" "relay-client-new"
     "relay-secret-new" "nosuchcode" "33333333-4444-4555-8666-777777777777" "1.0.0"
     rUnknownBody rState (by decide) (by decide)⟩

/-! ### Helper lemmas for the redemption transaction -/

theorem code_hash_applyGuardedIncrement (cs : String) (i : InviteCodeRecord) :
    (applyGuardedIncrement cs i).code_hash = i.code_hash := by
  unfold applyGuardedIncrement
  split <;> rfl

theorem used_count_applyGuardedIncrement_ge (cs : String) (i : InviteCodeRecord) :
    i.used_count ≤ (applyGuardedIncrement cs i).used_count := by
  unfold applyGuardedIncrement
  split
  · exact Nat.le_succ _
  · exact Nat.le_refl _

theorem used_count_applyGuardedIncrement_le (cs : String) (i : InviteCodeRecord)
    (h : i.used_count ≤ i.max_uses) :
    (applyGuardedIncrement cs i).used_count ≤ (applyGuardedIncrement cs i).max_uses := by
  unfold applyGuardedIncrement
  split
  case isTrue hg =>
    have : i.used_count < i.max_uses := by
      unfold guardedInviteMatch at hg
      simp at hg
      exact hg.2
    simpa using this
  case isFalse hg => simpa using h

theorem usedOf_map_mono (cs h : String) (l : List InviteCodeRecord) :
    usedOf h l ≤ usedOf h (l.map (applyGuardedIncrement cs)) := by
  induction l with
  | nil => simp [usedOf]
  | cons i l ih =>
    unfold usedOf at *
    rw [List.map_cons]
    simp only [List.find?]
    rw [code_hash_applyGuardedIncrement]
    cases hc : (i.code_hash == h) with
    | true => simpa using used_count_applyGuardedIncrement_ge cs i
    | false => simpa using ih

theorem invitesBounded_map (cs : String) {l : List InviteCodeRecord} (h : invitesBounded l) :
    invitesBounded (l.map (applyGuardedIncrement cs)) := by
  intro i' hi'
  obtain ⟨i, hi, rfl⟩ := List.mem_map.mp hi'
  exact used_count_applyGuardedIncrement_le cs i (h i hi)

theorem redeemTx_mono (a : RedeemTxArgs) (s : RedeemState) (h : String) :
    usedOf h s.invites ≤ usedOf h (redeemTx a s).2.invites := by
  unfold redeemTx
  dsimp only
  split
  · exact usedOf_map_mono _ _ _
  · exact Nat.le_refl _

theorem redeemTx_bounded (a : RedeemTxArgs) (s : RedeemState) (h : invitesBounded s.invites) :
    invitesBounded (redeemTx a s).2.invites := by
  unfold redeemTx
  dsimp only
  split
  · exact invitesBounded_map _ h
  · exact h

theorem redeemTx_clients (a : RedeemTxArgs) (s : RedeemState) :
    ((redeemTx a s).1 = true → (redeemTx a s).2.clients = mkCredential a :: s.clients)
  ∧ ((redeemTx a s).1 = false → (redeemTx a s).2 = s) := by
  unfold redeemTx
  dsimp only
  split
  · exact ⟨fun _ => rfl, by simp⟩
  · exact ⟨by simp, fun _ => rfl⟩

theorem runRedeemTxs_cons (a : RedeemTxArgs) (ops : List RedeemTxArgs) (s : RedeemState) :
    runRedeemTxs (a :: ops) s = runRedeemTxs ops (redeemTx a s).2 := rfl

theorem runRedeemTxs_mono (ops : List RedeemTxArgs) (s : RedeemState) (h : String) :
    usedOf h s.invites ≤ usedOf h (runRedeemTxs ops s).invites := by
  induction ops generalizing s with
  | nil => exact Nat.le_refl _
  | cons a ops ih =>
    rw [runRedeemTxs_cons]
    exact le_trans (redeemTx_mono a s h) (ih (redeemTx a s).2)

theorem runRedeemTxs_bounded (ops : List RedeemTxArgs) (s : RedeemState)
    (h : invitesBounded s.invites) : invitesBounded (runRedeemTxs ops s).invites := by
  induction ops generalizing s with
  | nil => exact h
  | cons a ops ih =>
    rw [runRedeemTxs_cons]
    exact ih (redeemTx a s).2 (redeemTx_bounded a s h)

theorem redeemUsageAndTx_fail (nowIso cid csec iid codeHash : String)
    (invite : InviteCodeRecord) (s : RedeemState)
    (htx : (redeemTx ⟨codeHash, cid, csec, iid, nowIso⟩ s).1 = false) :
    redeemUsageAndTx nowIso cid csec iid codeHash invite s
      = ⟨409, .err .INVITE_ALREADY_USED, s, true⟩ := by
  have hs := (redeemTx_clients ⟨codeHash, cid, csec, iid, nowIso⟩ s).2 htx
  unfold redeemUsageAndTx
  split
  · rfl
  · rcases hr : redeemTx ⟨codeHash, cid, csec, iid, nowIso⟩ s with ⟨b, s2⟩
    rw [hr] at htx hs
    simp only at htx hs
    subst htx
    subst hs
    rfl

theorem redeemUsageAndTx_success (nowIso cid csec iid codeHash : String)
    (invite : InviteCodeRecord) (s s2 : RedeemState)
    (hlt : invite.used_count < invite.max_uses)
    (htx : redeemTx ⟨codeHash, cid, csec, iid, nowIso⟩ s = (true, s2)) :
    redeemUsageAndTx nowIso cid csec iid codeHash invite s
      = ⟨200, .ok cid csec, s2, true⟩ := by
  unfold redeemUsageAndTx
  split
  · omega
  · rw [htx]

theorem handleRedeem_tx_fail (nowMs : Int) (nowIso cid csec code iid mv : String)
    (body : RedeemBody) (s : RedeemState) (invite : InviteCodeRecord)
    (hparse : parseRedeemBody body = some (code, iid, mv))
    (hfind : s.invites.find? (fun i => i.code_hash == hashInviteCode code) = some invite)
    (hexp : invite.expires_at.any (fun t => decide (t ≤ nowMs)) = false)
    (htx : (redeemTx ⟨hashInviteCode code, cid, csec, iid, nowIso⟩ s).1 = false) :
    handleRedeem nowMs nowIso cid csec body s = ⟨409, .err .INVITE_ALREADY_USED, s, true⟩ := by
  unfold handleRedeem
  rw [hparse]
  dsimp only
  rw [hfind]
  dsimp only
  rw [if_neg (by simp [hexp])]
  exact redeemUsageAndTx_fail nowIso cid csec iid (hashInviteCode code) invite s htx

theorem handleRedeem_tx_success (nowMs : Int) (nowIso cid csec code iid mv : String)
    (body : RedeemBody) (s s2 : RedeemState) (invite : InviteCodeRecord)
    (hparse : parseRedeemBody body = some (code, iid, mv))
    (hfind : s.invites.find? (fun i => i.code_hash == hashInviteCode code) = some invite)
    (hexp : invite.expires_at.any (fun t => decide (t ≤ nowMs)) = false)
    (hlt : invite.used_count < invite.max_uses)
    (htx : redeemTx ⟨hashInviteCode code, cid, csec, iid, nowIso⟩ s = (true, s2)) :
    handleRedeem nowMs nowIso cid csec body s = ⟨200, .ok cid csec, s2, true⟩
      ∧ s2.clients = mkCredential ⟨hashInviteCode code, cid, csec, iid, nowIso⟩ :: s.clients := by
  constructor
  · unfold handleRedeem
    rw [hparse]
    dsimp only
    rw [hfind]
    dsimp only
    rw [if_neg (by simp [hexp])]
    exact redeemUsageAndTx_success nowIso cid csec iid (hashInviteCode code) invite s s2 hlt htx
  · have hcl := (redeemTx_clients ⟨hashInviteCode code, cid, csec, iid, nowIso⟩ s).1 (by rw [htx])
    rw [htx] at hcl
    exact hcl

/-- C1: across any sequence of redemption transactions `usedCount`
never decreases and, once `usedCount ≤ maxUses` holds, it keeps
holding; a credential row is inserted exactly when the guarded
increment committed, and a failed guard rolls the whole transaction
back to the pre-state; at the route level, a transaction whose guarded
update affected zero rows makes the handler answer 409
`INVITE_ALREADY_USED` with the state unchanged (so no credential is
issued), while a committed transaction yields the 200 success carrying
the fresh credentials, with exactly the new credential row inserted.
Concretely, with `maxUses = 1, usedCount = 0` two racing redemptions
(both of which passed the route pre-checks on the initial state) commit
exactly one success, leave `usedCount` at 1, insert exactly one
credential, and the loser is answered `INVITE_ALREADY_USED`. -/
theorem redeem_transaction_c1 :
    (∀ (a : RedeemTxArgs) (s : RedeemState) (h : String),
        usedOf h s.invites ≤ usedOf h (redeemTx a s).2.invites)
  ∧ (∀ (a : RedeemTxArgs) (s : RedeemState), invitesBounded s.invites →
        invitesBounded (redeemTx a s).2.invites)
  ∧ (∀ (a : RedeemTxArgs) (s : RedeemState),
        ((redeemTx a s).1 = true → (redeemTx a s).2.clients = mkCredential a :: s.clients)
      ∧ ((redeemTx a s).1 = false → (redeemTx a s).2 = s))
  ∧ (∀ (ops : List RedeemTxArgs) (s : RedeemState) (h : String),
        usedOf h s.invites ≤ usedOf h (runRedeemTxs ops s).invites)
  ∧ (∀ (ops : List RedeemTxArgs) (s : RedeemState), invitesBounded s.invites →
        invitesBounded (runRedeemTxs ops s).invites)
  ∧ (∀ (nowIso cid csec iid codeHash : String) (invite : InviteCodeRecord) (s : RedeemState),
        (redeemTx ⟨codeHash, cid, csec, iid, nowIso⟩ s).1 = false →
        redeemUsageAndTx nowIso cid csec iid codeHash invite s
          = ⟨409, .err .INVITE_ALREADY_USED, s, true⟩)
  ∧ (∀ (nowMs : Int) (nowIso cid csec code iid mv : String) (body : RedeemBody)
        (s : RedeemState) (invite : InviteCodeRecord),
        parseRedeemBody body = some (code, iid, mv) →
        s.invites.find? (fun i => i.code_hash == hashInviteCode code) = some invite →
        invite.expires_at.any (fun t => decide (t ≤ nowMs)) = false →
        (redeemTx ⟨hashInviteCode code, cid, csec, iid, nowIso⟩ s).1 = false →
        handleRedeem nowMs nowIso cid csec body s
          = ⟨409, .err .INVITE_ALREADY_USED, s, true⟩)
  ∧ (∀ (nowMs : Int) (nowIso cid csec code iid mv : String) (body : RedeemBody)
        (s s2 : RedeemState) (invite : InviteCodeRecord),
        parseRedeemBody body = some (code, iid, mv) →
        s.invites.find? (fun i => i.code_hash == hashInviteCode code) = some invite →
        invite.expires_at.any (fun t => decide (t ≤ nowMs)) = false →
        invite.used_count < invite.max_uses →
        redeemTx ⟨hashInviteCode code, cid, csec, iid, nowIso⟩ s = (true, s2) →
        handleRedeem nowMs nowIso cid csec body s = ⟨200, .ok cid csec, s2, true⟩
          ∧ s2.clients = mkCredential ⟨hashInviteCode code, cid, csec, iid, nowIso⟩ :: s.clients)
  ∧ (rInvite.used_count < rInvite.max_uses
      ∧ (redeemTx raceArgs1 rState).1 = true
      ∧ (redeemTx raceArgs2 (redeemTx raceArgs1 rState).2).1 = false
      ∧ (redeemTx raceArgs2 (redeemTx raceArgs1 rState).2).2 = (redeemTx raceArgs1 rState).2
      ∧ usedOf (hashInviteCode "welcome1") (redeemTx raceArgs1 rState).2.invites = 1
      ∧ (redeemTx raceArgs1 rState).2.clients = [mkCredential raceArgs1])
  ∧ (handleRedeem 1700000000000 "2023-11-14T22:13:20.000Z" "relay-client-aaa"
        "relay-secret-aaa" rBody rState
        = ⟨200, .ok "relay-client-aaa" "relay-secret-aaa", raceStateAfterAaa, true⟩
      ∧ redeemUsageAndTx "2023-11-14T22:13:20.000Z" "relay-client-bbb" "relay-secret-bbb"
          "33333333-4444-4555-8666-777777777777" (hashInviteCode "welcome1") rInvite
          raceStateAfterAaa
          = ⟨409, .err .INVITE_ALREADY_USED, raceStateAfterAaa, true⟩
      ∧ usedOf (hashInviteCode "welcome1") raceStateAfterAaa.invites = 1
      ∧ raceStateAfterAaa.clients.length = rState.clients.length + 1) :=
  ⟨redeemTx_mono, redeemTx_bounded, redeemTx_clients, runRedeemTxs_mono, runRedeemTxs_bounded,
   redeemUsageAndTx_fail, handleRedeem_tx_fail, handleRedeem_tx_success,
   ⟨by decide, by decide, by decide, by decide, by decide, by decide⟩,
   by decide, by decide, by decide, by decide⟩

/-! ### Theorems: the upload pipeline (`upload.ts`) -/

theorem sendError_body (ctx : UploadCtx) (s : UploadState) (cidOpt : Option String)
    (st : Nat) (code : UploadErrorCode) (fwd : Bool) :
    (sendError ctx s cidOpt st code fwd).body = .err code := rfl

theorem sendError_nonces (ctx : UploadCtx) (s : UploadState) (cidOpt : Option String)
    (st : Nat) (code : UploadErrorCode) (fwd : Bool) :
    (sendError ctx s cidOpt st code fwd).state.nonces = s.nonces := rfl

theorem commitAndForward_audit (ctx : UploadCtx) (ext : UploadExt) (s : UploadState)
    (cid nonce : String) (pu : ParsedUpload) :
    ∃ row : AuditRecord,
      (commitAndForward ctx ext s cid nonce pu).state.audit = row :: s.audit ∧
      row.request_id = ctx.requestId ∧ row.ip = ctx.ip ∧ row.created_at = ctx.nowIso ∧
      row.client_id = some cid ∧
      row.status = (match (commitAndForward ctx ext s cid nonce pu).body with
        | .ok _ _ => "FORWARDED"
        | .err _ => "REJECTED") ∧
      row.error_code = (match (commitAndForward ctx ext s cid nonce pu).body with
        | .ok _ _ => none
        | .err c => some c) := by
  unfold commitAndForward
  dsimp only
  split
  · exact ⟨_, rfl, rfl, rfl, rfl, rfl, rfl, rfl⟩
  · split
    · exact ⟨_, rfl, rfl, rfl, rfl, rfl, rfl, rfl⟩
    · exact ⟨_, rfl, rfl, rfl, rfl, rfl, rfl, rfl⟩

/-- C5: every attempt handled by the pipeline, whatever its outcome,
prepends exactly one audit row before the response is produced: it
carries the request id, the caller ip, the clock, the client id as far
as identity was established (`none` when header validation failed),
status `FORWARDED` exactly on success, and otherwise `REJECTED`
together with the specific error code of the rejection. -/
theorem upload_audit_exactly_once_c5 (ctx : UploadCtx) (ext : UploadExt) (req : UploadRequest)
    (s : UploadState) :
    ∃ row : AuditRecord,
      (handleUpload ctx ext req s).state.audit = row :: s.audit ∧
      row.request_id = ctx.requestId ∧ row.ip = ctx.ip ∧ row.created_at = ctx.nowIso ∧
      row.client_id = (parseUploadHeaders req.headers).map (fun h => h.clientId) ∧
      row.status = (match (handleUpload ctx ext req s).body with
        | .ok _ _ => "FORWARDED"
        | .err _ => "REJECTED") ∧
      row.error_code = (match (handleUpload ctx ext req s).body with
        | .ok _ _ => none
        | .err c => some c) := by
  unfold handleUpload
  split
  case _ hparse =>
    rw [hparse]
    exact ⟨_, rfl, rfl, rfl, rfl, rfl, rfl, rfl⟩
  case _ h hparse =>
    rw [hparse]
    dsimp only
    split
    · exact ⟨_, rfl, rfl, rfl, rfl, rfl, rfl, rfl⟩
    split
    · exact ⟨_, rfl, rfl, rfl, rfl, rfl, rfl, rfl⟩
    case _ client _ =>
      split
      · exact ⟨_, rfl, rfl, rfl, rfl, rfl, rfl, rfl⟩
      split
      · exact ⟨_, rfl, rfl, rfl, rfl, rfl, rfl, rfl⟩
      split
      · exact ⟨_, rfl, rfl, rfl, rfl, rfl, rfl, rfl⟩
      split
      · exact ⟨_, rfl, rfl, rfl, rfl, rfl, rfl, rfl⟩
      · exact ⟨_, rfl, rfl, rfl, rfl, rfl, rfl, rfl⟩
      case _ pu _ =>
        split
        · exact ⟨_, rfl, rfl, rfl, rfl, rfl, rfl, rfl⟩
        · exact commitAndForward_audit ctx ext s h.clientId h.nonce pu

/-- C4: an upload rejected with `PAYLOAD_INVALID` leaves the nonce
table untouched and never reached the forwarder — concretely, a
corrected resubmission with the same nonce then succeeds — whereas an
upload rejected with `DISCORD_FORWARD_FAILED` has already committed its
`(clientId, nonce)` row (which survives the opportunistic cleanup as
long as its expiry lies after the clock), so an identical retry is
rejected with `NONCE_REPLAY` without invoking the forwarder again. -/
theorem upload_nonce_frame_c4 :
    (∀ (ctx : UploadCtx) (ext : UploadExt) (req : UploadRequest) (s : UploadState),
        (handleUpload ctx ext req s).body = .err .PAYLOAD_INVALID →
        (handleUpload ctx ext req s).state.nonces = s.nonces ∧
        (handleUpload ctx ext req s).forwardCalled = false)
  ∧ ((handleUpload tCtx tExtOk tReqBad tState).body = .err .PAYLOAD_INVALID
      ∧ (handleUpload tCtx tExtOk tReq (handleUpload tCtx tExtOk tReqBad tState).state).status
          = 200)
  ∧ (∀ (ctx : UploadCtx) (ext : UploadExt) (req : UploadRequest) (s : UploadState)
        (h : UploadHeaders),
        parseUploadHeaders req.headers = some h →
        (handleUpload ctx ext req s).body = .err .DISCORD_FORWARD_FAILED →
        sqliteTextLe ctx.expiresAtIso ctx.nowIso = false →
        (⟨h.clientId, h.nonce, ctx.nowIso, ctx.expiresAtIso⟩ : NonceRecord) ∈
          (handleUpload ctx ext req s).state.nonces)
  ∧ ((handleUpload tCtx tExtFwdFail tReq tState).body = .err .DISCORD_FORWARD_FAILED
      ∧ (handleUpload tCtx tExtFwdFail tReq
            (handleUpload tCtx tExtFwdFail tReq tState).state).body = .err .NONCE_REPLAY
      ∧ (handleUpload tCtx tExtFwdFail tReq
            (handleUpload tCtx tExtFwdFail tReq tState).state).forwardCalled = false) := by
  refine ⟨?_, ⟨by decide, by decide⟩, ?_, ⟨by decide, by decide, by decide⟩⟩
  · intro ctx ext req s
    unfold handleUpload
    split
    · intro hb
      simp only [sendError_body] at hb
      simp at hb
    · dsimp only
      split
      · intro hb
        simp only [sendError_body] at hb
        simp at hb
      split
      · intro hb
        simp only [sendError_body] at hb
        simp at hb
      split
      · intro hb
        simp only [sendError_body] at hb
        simp at hb
      split
      · intro hb
        simp only [sendError_body] at hb
        simp at hb
      split
      · intro _
        exact ⟨rfl, rfl⟩
      split
      · intro hb
        simp only [sendError_body] at hb
        simp at hb
      · intro _
        exact ⟨rfl, rfl⟩
      split
      · intro hb
        simp only [sendError_body] at hb
        simp at hb
      · unfold commitAndForward
        dsimp only
        split
        · intro hb
          simp only [sendError_body] at hb
          simp at hb
        split
        · intro hb
          simp only [sendError_body] at hb
          simp at hb
        · intro hb
          simp at hb
  · intro ctx ext req s h hp
    unfold handleUpload
    rw [hp]
    dsimp only
    split
    · intro hb
      simp only [sendError_body] at hb
      simp at hb
    split
    · intro hb
      simp only [sendError_body] at hb
      simp at hb
    split
    · intro hb
      simp only [sendError_body] at hb
      simp at hb
    split
    · intro hb
      simp only [sendError_body] at hb
      simp at hb
    split
    · intro hb
      simp only [sendError_body] at hb
      simp at hb
    split
    · intro hb
      simp only [sendError_body] at hb
      simp at hb
    · intro hb
      simp only [sendError_body] at hb
      simp at hb
    split
    · intro hb
      simp only [sendError_body] at hb
      simp at hb
    · unfold commitAndForward
      dsimp only
      split
      · intro hb
        simp only [sendError_body] at hb
        simp at hb
      split
      · intro _ hexp
        show _ ∈ (sendError _ _ _ _ _ _).state.nonces
        rw [sendError_nonces]
        dsimp only
        split
        · exact List.mem_cons_self _ _
        · exact List.mem_filter.mpr ⟨List.mem_cons_self _ _, by simpa using hexp⟩
      · intro hb
        simp at hb

theorem sendError_status (ctx : UploadCtx) (s : UploadState) (cidOpt : Option String)
    (st : Nat) (code : UploadErrorCode) (fwd : Bool) :
    (sendError ctx s cidOpt st code fwd).status = st := rfl

/-- C6 (amended): header validation accepts exactly the requests whose
five `x-scamscreener-*` headers are present with client id nonempty,
timestamp all decimal digits, nonce a UUID, signature exactly 64
hexadecimal characters of either case (the handler lowercases it before
comparison — a 64-character uppercase-hex signature passes, see the
counterexample) and version `"v1"`; any missing header makes validation
fail, and a request failing validation is rejected with HTTP 401 and
`AUTH_FAILED`. -/
theorem upload_header_validation_c6 :
    (∀ cid ts n sig ver : String,
        (parseUploadHeaders ⟨some cid, some ts, some n, some sig, some ver⟩).isSome = true ↔
        (cid.length ≠ 0 ∧ matchesDigits ts = true ∧ isUuid n = true ∧
          matchesHex64 sig = true ∧ ver = "v1"))
  ∧ (∀ raw : RawUploadHeaders,
        (raw.clientId.isNone || raw.timestamp.isNone || raw.nonce.isNone ||
          raw.signature.isNone || raw.signatureVersion.isNone) = true →
        parseUploadHeaders raw = none)
  ∧ (∀ (ctx : UploadCtx) (ext : UploadExt) (req : UploadRequest) (s : UploadState),
        parseUploadHeaders req.headers = none →
        (handleUpload ctx ext req s).status = 401 ∧
        (handleUpload ctx ext req s).body = .err .AUTH_FAILED) := by
  refine ⟨?_, ?_, ?_⟩
  · intro cid ts n sig ver
    unfold parseUploadHeaders
    dsimp only
    split
    next hcond =>
      refine iff_of_true rfl ?_
      simp only [Bool.and_eq_true, bne_iff_ne, beq_iff_eq] at hcond
      exact ⟨hcond.1.1.1.1, hcond.1.1.1.2, hcond.1.1.2, hcond.1.2, hcond.2⟩
    next hcond =>
      refine iff_of_false (by simp) ?_
      intro hcontra
      exact hcond (by
        simp only [Bool.and_eq_true, bne_iff_ne, beq_iff_eq]
        exact ⟨⟨⟨⟨hcontra.1, hcontra.2.1⟩, hcontra.2.2.1⟩, hcontra.2.2.2.1⟩, hcontra.2.2.2.2⟩)
  · intro raw hmiss
    rcases raw with ⟨c, t, n, sg, v⟩
    cases c <;> cases t <;> cases n <;> cases sg <;> cases v <;> simp_all [parseUploadHeaders]
  · intro ctx ext req s hp
    unfold handleUpload
    rw [hp]
    exact ⟨rfl, rfl⟩

theorem upload_header_validation_c6_witness :
    (parseUploadHeaders upperSigHeaders).isSome = true ∧
    parseUploadHeaders ⟨none, some "1700000000", some tNonce, some upperSig, some "v1"⟩ = none ∧
    (handleUpload tCtx tExtOk { tReq with headers := ⟨none, none, none, none, none⟩ }
      tState).status = 401 ∧
    (handleUpload tCtx tExtOk { tReq with headers := ⟨none, none, none, none, none⟩ }
      tState).body = .err .AUTH_FAILED :=
  ⟨(upload_header_validation_c6.1 tClientId "1700000000" tNonce upperSig "v1").mpr
     ⟨by decide, by decide, by decide, by decide, rfl⟩,
   upload_header_validation_c6.2.1 ⟨none, some "1700000000", some tNonce, some upperSig, some "v1"⟩
     (by decide),
   (upload_header_validation_c6.2.2 tCtx tExtOk _ tState (by decide)).1,
   (upload_header_validation_c6.2.2 tCtx tExtOk _ tState (by decide)).2⟩

/-- C6 counterexample: a signature header of 64 uppercase hexadecimal
characters is not "64 lowercase-hex characters", yet it passes header
validation. -/
theorem upload_header_validation_c6_cex :
    (parseUploadHeaders upperSigHeaders).isSome = true ∧
    specSignatureLowercaseHex64 upperSig = false := by
  exact ⟨by decide, by decide⟩

theorem upload_nonce_frame_c4_witness :
    ((handleUpload tCtx tExtOk tReqBad tState).state.nonces = tState.nonces
      ∧ (handleUpload tCtx tExtOk tReqBad tState).forwardCalled = false)
  ∧ (⟨tClientId, tNonce, tCtx.nowIso, tCtx.expiresAtIso⟩ : NonceRecord) ∈
      (handleUpload tCtx tExtFwdFail tReq tState).state.nonces :=
  ⟨upload_nonce_frame_c4.1 tCtx tExtOk tReqBad tState (by decide),
   upload_nonce_frame_c4.2.2.1 tCtx tExtFwdFail tReq tState
     ⟨tClientId, "1700000000", tNonce, hmacSha256Hex tSecret tCanonical⟩
     (by decide) (by decide) (by decide)⟩

theorem redeem_transaction_c1_witness :
    invitesBounded (redeemTx raceArgs1 rState).2.invites
  ∧ invitesBounded (runRedeemTxs [raceArgs1, raceArgs2] rState).invites
  ∧ handleRedeem 1700000000000 "2023-11-14T22:13:20.000Z" "relay-client-bbb"
      "relay-secret-bbb" rBody raceStateAfterAaa
      = ⟨409, .err .INVITE_ALREADY_USED, raceStateAfterAaa, true⟩
  ∧ handleRedeem 1700000000000 "2023-11-14T22:13:20.000Z" "relay-client-aaa"
      "relay-secret-aaa" rBody rState
      = ⟨200, .ok "relay-client-aaa" "relay-secret-aaa", raceStateAfterAaa, true⟩
  ∧ raceStateAfterAaa.clients = mkCredential raceTxAaa :: rState.clients :=
  ⟨redeem_transaction_c1.2.1 raceArgs1 rState
     (by intro i hi; simp only [rState, List.mem_singleton] at hi; subst hi; decide),
   redeem_transaction_c1.2.2.2.2.1 [raceArgs1, raceArgs2] rState
     (by intro i hi; simp only [rState, List.mem_singleton] at hi; subst hi; decide),
   redeem_transaction_c1.2.2.2.2.2.2.1 1700000000000 "2023-11-14T22:13:20.000Z"
     "relay-client-bbb" "relay-secret-bbb" "welcome1" "33333333-4444-4555-8666-777777777777"
     "1.0.0" rBody raceStateAfterAaa rUsedInvite (by decide) (by decide) (by decide) (by decide),
   (redeem_transaction_c1.2.2.2.2.2.2.2.1 1700000000000 "2023-11-14T22:13:20.000Z"
     "relay-client-aaa" "relay-secret-aaa" "welcome1" "33333333-4444-4555-8666-777777777777"
     "1.0.0" rBody rState raceStateAfterAaa rInvite (by decide) (by decide) (by decide)
     (by decide) (by decide)).1,
   (redeem_transaction_c1.2.2.2.2.2.2.2.1 1700000000000 "2023-11-14T22:13:20.000Z"
     "relay-client-aaa" "relay-secret-aaa" "welcome1" "33333333-4444-4555-8666-777777777777"
     "1.0.0" rBody rState raceStateAfterAaa rInvite (by decide) (by decide) (by decide)
     (by decide) (by decide)).2⟩

end ScamScreener
